import Mathlib

/-!
Shallow embedding of `src/script.py` (pierrebrtr/pdf-merger-python):
the schema-walking / page-accounting / TOC-layout logic of `merge_pdfs`
and its inner closure `process_section`, together with theorems settling
the specification claims about them.

Modelling conventions:
* A schema node is either a Python `list` of filenames (`Node.leaf`) or a
  Python `dict` of titled children (`Node.sect`); the Boolean on `sect`
  records whether the dict contains the key `"_toc_"` (the TOC placement
  marker test on line 41 of the source).
* The filesystem / PDF backend is a function `String → Option Nat`:
  `none` means `os.path.exists` is false for that path, `some n` means the
  file opens with `n` pages.
* Python integers are `Int` (so `current_page - 1` is exact), page counts
  are `Nat`, and all measured text widths and layout coordinates are `ℚ`
  (exact arithmetic standing in for the float arithmetic of the layout
  code, which involves only +, -, *, / and `int()` truncation).
-/

namespace PdfMerge

/-- `INPUT_DIR` from line 19 of `src/script.py`. -/
def INPUT_DIR : String := "../../CleanFiles"

/-- `os.path.join(INPUT_DIR, pdf_file)` from line 52 of the source. -/
def resolve (f : String) : String := INPUT_DIR ++ "/" ++ f

/-- A schema node: a Python `dict` (section, with the flag recording
whether the key `"_toc_"` is present, line 41) or a Python `list` of
filenames (leaf, line 46). -/
inductive Node where
  | leaf (files : List String) : Node
  | sect (hasTocKey : Bool) (children : List (String × Node)) : Node

/-- The shared mutable state of `merge_pdfs`: the page cursor
(`current_page`, line 35), the recorded TOC placement (`toc_page_number`,
line 36), the navigation outline list (`toc`, line 33), the visible TOC
row list (`visible_toc`, line 34), the number of pages inserted into the
output document so far, and the warning messages printed so far. -/
structure MergeState where
  currentPage : Int
  tocPageNumber : Option Int
  toc : List (Nat × String × Int)
  visibleToc : List (String × Int × Nat)
  docPages : Nat
  warnings : List String

/-- The initial state of `merge_pdfs` (lines 32-36): cursor at 1, no TOC
placement recorded, empty lists. -/
def initState : MergeState :=
  { currentPage := 1, tocPageNumber := none, toc := [], visibleToc := [],
    docPages := 0, warnings := [] }

/-- The `for pdf_file in content` loop of `process_section`
(lines 51-60): a missing file appends a warning and leaves the state
otherwise unchanged; an existing file advances the cursor and the output
document by its page count. -/
def processFiles (fsys : String → Option Nat) (files : List String)
    (s : MergeState) : MergeState :=
  files.foldl (fun st f =>
    match fsys (resolve f) with
    | some n =>
        { st with currentPage := st.currentPage + n, docPages := st.docPages + n }
    | none =>
        { st with warnings := st.warnings ++ ["File not found: " ++ resolve f] }) s

mutual

/-- `process_section(title, content, level)` (lines 38-70 of the source).
`parents` is the `parent_sections` stack of `(title, level)` records. -/
def processSection (fsys : String → Option Nat) (parents : List (String × Nat))
    (title : String) (content : Node) (level : Nat) (s : MergeState) : MergeState :=
  match content with
  | Node.sect true _ =>
      { s with tocPageNumber := some (s.currentPage - 1),
               currentPage := s.currentPage + 1 }
  | Node.leaf files =>
      let s1 := if parents.any (fun p => p.1 == "Introduction") then s
        else { s with toc := s.toc ++ [(level, title, s.currentPage)],
                      visibleToc := s.visibleToc ++ [(title, s.currentPage, level)] }
      processFiles fsys files s1
  | Node.sect false children =>
      let s1 := if title = "Introduction" then s
        else { s with toc := s.toc ++ [(level, title, s.currentPage)],
                      visibleToc := s.visibleToc ++ [(title, s.currentPage, level)] }
      processChildren fsys (parents ++ [(title, level)]) children (level + 1) s1

/-- The `for sub_title, sub_content in content.items()` loop
(lines 68-69), also used for the top-level schema loop (lines 75-76). -/
def processChildren (fsys : String → Option Nat) (parents : List (String × Nat))
    (children : List (String × Node)) (level : Nat) (s : MergeState) : MergeState :=
  match children with
  | [] => s
  | (t, n) :: rest =>
      processChildren fsys parents rest level (processSection fsys parents t n level s)

end

/-- The first pass of `merge_pdfs` (lines 72-76): walk the whole schema
from the initial state with an empty ancestor stack at level 1. -/
def runWalk (fsys : String → Option Nat) (schema : List (String × Node)) : MergeState :=
  processChildren fsys [] schema 1 initState

/-- The TOC insertion page actually used (lines 78-83): the recorded
placement, defaulting to 0 when none was found. -/
def tocPageFinal (s : MergeState) : Int := s.tocPageNumber.getD 0

/-- Whether the "No TOC placement found in schema" warning of line 79 is
printed. -/
def tocMissingWarning (s : MergeState) : Bool := s.tocPageNumber.isNone

/-- The argument of `doc.set_toc` (line 174): the accumulated `toc`
list. -/
def docOutline (s : MergeState) : List (Nat × String × Int) := s.toc

mutual

/-- Whether a node or any of its descendants is the TOC placement marker
(a dict containing the key `"_toc_"`). -/
def nodeHasMarker : Node → Bool
  | Node.leaf _ => false
  | Node.sect b children => b || childrenHaveMarker children

/-- Whether any node in a child list contains the TOC placement marker. -/
def childrenHaveMarker : List (String × Node) → Bool
  | [] => false
  | c :: rest => nodeHasMarker c.2 || childrenHaveMarker rest

end

/-! ### TOC renderer (lines 104-171 of the source) -/

/-- Python's `int()` applied to an exact ratio: truncation toward zero. -/
def ratTrunc (q : ℚ) : Int := if 0 ≤ q then ⌊q⌋ else ⌈q⌉

/-- `indent = 30 * (level - 1)` (line 116). -/
def rowIndent (level : Nat) : ℚ := 30 * ((level : ℚ) - 1)

/-- `dots_width = content_width - indent - title_width - page_num_width - 20`
(line 132). -/
def dotsWidth (contentWidth indent titleWidth pageNumWidth : ℚ) : ℚ :=
  contentWidth - indent - titleWidth - pageNumWidth - 20

/-- `num_dots = int(dots_width / dot_width)` (line 137). -/
def numDots (contentWidth indent titleWidth pageNumWidth dotWidth : ℚ) : Int :=
  ratTrunc (dotsWidth contentWidth indent titleWidth pageNumWidth / dotWidth)

/-- The number of dot glyphs actually drawn by
`tw.append(..., dot_char * num_dots, ...)` (line 151): Python string
repetition by a non-positive count yields the empty string, so the drawn
count is `num_dots` clamped to 0 from below. -/
def drawnDots (contentWidth indent titleWidth pageNumWidth dotWidth : ℚ) : Nat :=
  (numDots contentWidth indent titleWidth pageNumWidth dotWidth).toNat

/-- One `insert_link` annotation (lines 162-167): the rectangle
`(text_x, text_y - 10, page_width - margin_right, text_y + 4)` and the
zero-based goto target `page_number - 1`. -/
structure LinkAnn where
  x0 : ℚ
  y0 : ℚ
  x1 : ℚ
  y1 : ℚ
  targetPage : Int

/-- The `for title, page_number, level in visible_toc` loop
(lines 111-171), projected onto the link annotations it inserts.
`yPos` is `y_position`, `lastLevel` is `last_level`; an extra 40-unit gap
precedes a level-1 row that follows a non-level-1 row (line 113), the
link left edge is `text_x = margin_left + indent` (lines 116-117, 162),
and `y_position` advances by 25 after every row (line 170). -/
def renderLinksAux (pageWidth : ℚ) (rows : List (String × Int × Nat))
    (yPos : ℚ) (lastLevel : Nat) : List LinkAnn :=
  match rows with
  | [] => []
  | (_, page, level) :: rest =>
      let y := if level = 1 ∧ lastLevel ≠ 1 then yPos + 40 else yPos
      let textX := 50 + rowIndent level
      ⟨textX, y - 10, pageWidth - 50, y + 4, page - 1⟩ ::
        renderLinksAux pageWidth rest (y + 25) level

/-- The link annotations inserted for the whole visible TOC:
`y_position = 100` (line 104), `last_level = 1` (line 109),
`margin_left = margin_right = 50` (lines 106-107). -/
def renderLinks (pageWidth : ℚ) (rows : List (String × Int × Nat)) : List LinkAnn :=
  renderLinksAux pageWidth rows 100 1

/-! ### Derived specification-side functions -/

/-- Total page count contributed by a leaf group: the sum of the page
counts of those listed files that exist. -/
def groupPages (fsys : String → Option Nat) (files : List String) : Nat :=
  (files.filterMap (fun f => fsys (resolve f))).sum

/-- Expected visible TOC rows of a depth-1, leaf-only schema starting at
page cursor `start`: one row per group, at level 1, each starting where
the previous group's pages ended. -/
def leafEntriesFrom (fsys : String → Option Nat) (start : Int) :
    List (String × List String) → List (String × Int × Nat)
  | [] => []
  | g :: rest => (g.1, start, 1) :: leafEntriesFrom fsys (start + groupPages fsys g.2) rest

/-- Reorder a visible-TOC row `(title, page, level)` into the outline
triple `(level, title, page)` used by `doc.set_toc`. -/
def rowToOutline (r : String × Int × Nat) : Nat × String × Int := (r.2.2, r.1, r.2.1)

/-- The lockstep invariant between the navigation outline list and the
visible TOC list: the outline is exactly the visible rows with their
components reordered. -/
def aligned (s : MergeState) : Prop := s.toc = s.visibleToc.map rowToOutline

/-- A filesystem on which no path exists. -/
def noFiles : String → Option Nat := fun _ => none

/-- A filesystem on which every path opens as a two-page document. -/
def twoPages : String → Option Nat := fun _ => some 2

/-! ### Lemmas about the file loop -/

/-- Complete characterization of the file loop (lines 51-60): the cursor
and the output document advance by the total page count of the existing
files, one "File not found" warning is appended per missing file in
declaration order, and nothing else changes. -/
theorem processFiles_spec (fsys : String → Option Nat) (files : List String)
    (s : MergeState) :
    processFiles fsys files s =
      { s with
        currentPage := s.currentPage + (groupPages fsys files : Int),
        docPages := s.docPages + groupPages fsys files,
        warnings := s.warnings ++ (files.filter (fun f => (fsys (resolve f)).isNone)).map
          (fun f => "File not found: " ++ resolve f) } := by
  induction files generalizing s with
  | nil => simp [processFiles, groupPages]
  | cons f rest ih =>
    have hstep : processFiles fsys (f :: rest) s =
        processFiles fsys rest
          (match fsys (resolve f) with
           | some n =>
               { s with currentPage := s.currentPage + n, docPages := s.docPages + n }
           | none =>
               { s with warnings := s.warnings ++ ["File not found: " ++ resolve f] }) := by
      simp [processFiles]
    rw [hstep]
    cases h : fsys (resolve f) with
    | some n =>
      rw [ih]
      simp [groupPages, h]
      constructor
      · ring
      · omega
    | none =>
      rw [ih]
      simp [groupPages, h]

/-- The file loop leaves `visible_toc` untouched. -/
theorem processFiles_visibleToc (fsys : String → Option Nat) (files : List String)
    (s : MergeState) : (processFiles fsys files s).visibleToc = s.visibleToc := by
  rw [processFiles_spec]

/-- The file loop leaves `toc` untouched. -/
theorem processFiles_toc (fsys : String → Option Nat) (files : List String)
    (s : MergeState) : (processFiles fsys files s).toc = s.toc := by
  rw [processFiles_spec]

/-- The file loop leaves `toc_page_number` untouched. -/
theorem processFiles_tocPageNumber (fsys : String → Option Nat) (files : List String)
    (s : MergeState) : (processFiles fsys files s).tocPageNumber = s.tocPageNumber := by
  rw [processFiles_spec]

/-! ### Lemmas about the schema walk -/

mutual

/-- The walk only ever appends to the visible TOC list. -/
theorem processSection_visible_mono (fsys : String → Option Nat)
    (parents : List (String × Nat)) (title : String) (content : Node) (level : Nat)
    (s : MergeState) :
    ∃ t, (processSection fsys parents title content level s).visibleToc =
      s.visibleToc ++ t := by
  cases content with
  | leaf files =>
    by_cases h : (parents.any (fun p => p.1 == "Introduction")) = true
    · exact ⟨[], by simp [processSection, h, processFiles_visibleToc]⟩
    · exact ⟨[(title, s.currentPage, level)],
        by simp [processSection, h, processFiles_visibleToc]⟩
  | sect b children =>
    cases b with
    | true => exact ⟨[], by simp [processSection]⟩
    | false =>
      by_cases h : title = "Introduction"
      · obtain ⟨t1, h1⟩ := processChildren_visible_mono fsys
          (parents ++ [(title, level)]) children (level + 1) s
        exact ⟨t1, by simpa [processSection, h] using h1⟩
      · obtain ⟨t1, h1⟩ := processChildren_visible_mono fsys
          (parents ++ [(title, level)]) children (level + 1)
          { s with toc := s.toc ++ [(level, title, s.currentPage)],
                   visibleToc := s.visibleToc ++ [(title, s.currentPage, level)] }
        exact ⟨(title, s.currentPage, level) :: t1,
          by simp only [processSection, if_neg h]; rw [h1]; simp⟩

/-- The child loop only ever appends to the visible TOC list. -/
theorem processChildren_visible_mono (fsys : String → Option Nat)
    (parents : List (String × Nat)) (children : List (String × Node)) (level : Nat)
    (s : MergeState) :
    ∃ t, (processChildren fsys parents children level s).visibleToc =
      s.visibleToc ++ t := by
  cases children with
  | nil => exact ⟨[], by simp [processChildren]⟩
  | cons c rest =>
    obtain ⟨ct, cn⟩ := c
    obtain ⟨t1, h1⟩ := processSection_visible_mono fsys parents ct cn level s
    obtain ⟨t2, h2⟩ := processChildren_visible_mono fsys parents rest level
      (processSection fsys parents ct cn level s)
    exact ⟨t1 ++ t2, by simp [processChildren, h2, h1]⟩

end

mutual

/-- If a node does not contain the TOC placement marker, processing it
leaves `toc_page_number` unchanged. -/
theorem processSection_tocPage_noMarker (fsys : String → Option Nat)
    (parents : List (String × Nat)) (title : String) (content : Node) (level : Nat)
    (s : MergeState) (h : nodeHasMarker content = false) :
    (processSection fsys parents title content level s).tocPageNumber =
      s.tocPageNumber := by
  cases content with
  | leaf files =>
    by_cases hp : (parents.any (fun p => p.1 == "Introduction")) = true
    · simp [processSection, hp, processFiles_tocPageNumber]
    · simp [processSection, hp, processFiles_tocPageNumber]
  | sect b children =>
    cases b with
    | true => simp [nodeHasMarker] at h
    | false =>
      have hc : childrenHaveMarker children = false := by
        simpa [nodeHasMarker] using h
      by_cases ht : title = "Introduction"
      · simpa [processSection, ht] using
          processChildren_tocPage_noMarker fsys (parents ++ [(title, level)])
            children (level + 1) s hc
      · simpa [processSection, ht] using
          processChildren_tocPage_noMarker fsys (parents ++ [(title, level)])
            children (level + 1)
            { s with toc := s.toc ++ [(level, title, s.currentPage)],
                     visibleToc := s.visibleToc ++ [(title, s.currentPage, level)] } hc

/-- If no child contains the TOC placement marker, the child loop leaves
`toc_page_number` unchanged. -/
theorem processChildren_tocPage_noMarker (fsys : String → Option Nat)
    (parents : List (String × Nat)) (children : List (String × Node)) (level : Nat)
    (s : MergeState) (h : childrenHaveMarker children = false) :
    (processChildren fsys parents children level s).tocPageNumber =
      s.tocPageNumber := by
  cases children with
  | nil => simp [processChildren]
  | cons c rest =>
    obtain ⟨ct, cn⟩ := c
    have h1 : nodeHasMarker cn = false := by
      simp [childrenHaveMarker] at h
      exact h.1
    have h2 : childrenHaveMarker rest = false := by
      simp [childrenHaveMarker] at h
      exact h.2
    calc (processChildren fsys parents ((ct, cn) :: rest) level s).tocPageNumber
        = (processChildren fsys parents rest level
            (processSection fsys parents ct cn level s)).tocPageNumber := by
          simp [processChildren]
      _ = (processSection fsys parents ct cn level s).tocPageNumber :=
          processChildren_tocPage_noMarker fsys parents rest level _ h2
      _ = s.tocPageNumber :=
          processSection_tocPage_noMarker fsys parents ct cn level s h1

end

mutual

/-- Every step of the walk preserves the lockstep invariant between the
outline list and the visible TOC list. -/
theorem processSection_aligned (fsys : String → Option Nat)
    (parents : List (String × Nat)) (title : String) (content : Node) (level : Nat)
    (s : MergeState) (h : aligned s) :
    aligned (processSection fsys parents title content level s) := by
  cases content with
  | leaf files =>
    by_cases hp : (parents.any (fun p => p.1 == "Introduction")) = true
    · simpa [processSection, hp, aligned, processFiles_toc,
        processFiles_visibleToc] using h
    · simp only [processSection, if_neg hp]
      simp only [aligned, processFiles_toc, processFiles_visibleToc]
      simp [aligned] at h
      simp [h, rowToOutline]
  | sect b children =>
    cases b with
    | true => simpa [processSection, aligned] using h
    | false =>
      by_cases ht : title = "Introduction"
      · simp only [processSection, if_pos ht]
        exact processChildren_aligned fsys (parents ++ [(title, level)])
          children (level + 1) s h
      · simp only [processSection, if_neg ht]
        refine processChildren_aligned fsys (parents ++ [(title, level)])
          children (level + 1) _ ?_
        simp [aligned] at h ⊢
        simp [h, rowToOutline]

/-- The child loop preserves the lockstep invariant. -/
theorem processChildren_aligned (fsys : String → Option Nat)
    (parents : List (String × Nat)) (children : List (String × Node)) (level : Nat)
    (s : MergeState) (h : aligned s) :
    aligned (processChildren fsys parents children level s) := by
  cases children with
  | nil => simpa [processChildren] using h
  | cons c rest =>
    obtain ⟨ct, cn⟩ := c
    have h1 := processSection_aligned fsys parents ct cn level s h
    have h2 := processChildren_aligned fsys parents rest level
      (processSection fsys parents ct cn level s) h1
    simpa [processChildren] using h2

end

/-- Walking a concatenation of child lists is walking the first list and
then the second from the resulting state. -/
theorem processChildren_append (fsys : String → Option Nat)
    (parents : List (String × Nat)) (a b : List (String × Node)) (level : Nat)
    (s : MergeState) :
    processChildren fsys parents (a ++ b) level s =
      processChildren fsys parents b level (processChildren fsys parents a level s) := by
  induction a generalizing s with
  | nil => simp [processChildren]
  | cons c rest ih =>
    obtain ⟨ct, cn⟩ := c
    simp [processChildren, ih]

/-- Walking a depth-1, leaf-only schema appends exactly one visible row
per group, each recording the cursor value reached after the preceding
groups' pages. -/
theorem leafWalk_visible (fsys : String → Option Nat)
    (groups : List (String × List String)) (s : MergeState) :
    (processChildren fsys [] (groups.map (fun g => (g.1, Node.leaf g.2))) 1 s).visibleToc
      = s.visibleToc ++ leafEntriesFrom fsys s.currentPage groups := by
  induction groups generalizing s with
  | nil => simp [processChildren, leafEntriesFrom]
  | cons g rest ih =>
    obtain ⟨t, files⟩ := g
    have hstep : processChildren fsys []
        (((t, files) :: rest).map (fun g => (g.1, Node.leaf g.2))) 1 s =
        processChildren fsys [] (rest.map (fun g => (g.1, Node.leaf g.2))) 1
          (processSection fsys [] t (Node.leaf files) 1 s) := by
      simp [processChildren]
    have hv : (processSection fsys [] t (Node.leaf files) 1 s).visibleToc =
        s.visibleToc ++ [(t, s.currentPage, 1)] := by
      simp [processSection, processFiles_visibleToc]
    have hc : (processSection fsys [] t (Node.leaf files) 1 s).currentPage =
        s.currentPage + (groupPages fsys files : Int) := by
      simp [processSection, processFiles_spec]
    rw [hstep, ih, hv, hc, leafEntriesFrom]
    simp

/-- `leafEntriesFrom` yields one row per group. -/
theorem leafEntriesFrom_length (fsys : String → Option Nat) (start : Int)
    (groups : List (String × List String)) :
    (leafEntriesFrom fsys start groups).length = groups.length := by
  induction groups generalizing start with
  | nil => simp [leafEntriesFrom]
  | cons g rest ih => simp [leafEntriesFrom, ih]

/-- The Nth row of `leafEntriesFrom` starts at `start` plus the page
totals of the preceding groups. -/
theorem leafEntriesFrom_get (fsys : String → Option Nat) (start : Int)
    (groups : List (String × List String)) (N : Nat) (hN : N < groups.length) :
    (leafEntriesFrom fsys start groups)[N]? =
      some ((groups.get ⟨N, hN⟩).1,
        start + ((groups.take N).map (fun g => (groupPages fsys g.2 : Int))).sum, 1) := by
  induction groups generalizing start N with
  | nil => exact absurd hN (by simp)
  | cons g rest ih =>
    cases N with
    | zero => simp [leafEntriesFrom]
    | succ n =>
      have hn : n < rest.length := by simpa using hN
      rw [leafEntriesFrom]
      rw [List.getElem?_cons_succ, ih (start + groupPages fsys g.2) n hn]
      simp [add_assoc]

/-- One link annotation is inserted per visible row. -/
theorem renderLinksAux_length (pageWidth : ℚ) (rows : List (String × Int × Nat))
    (yPos : ℚ) (lastLevel : Nat) :
    (renderLinksAux pageWidth rows yPos lastLevel).length = rows.length := by
  induction rows generalizing yPos lastLevel with
  | nil => simp [renderLinksAux]
  | cons r rest ih =>
    obtain ⟨t, p, lv⟩ := r
    simp [renderLinksAux, ih]

/-- The horizontal extent and target of every link annotation: left edge
at `margin_left + indent`, right edge at `page_width - margin_right`,
target `page_number - 1`. -/
theorem renderLinksAux_get (pageWidth : ℚ) (rows : List (String × Int × Nat))
    (yPos : ℚ) (lastLevel : Nat) (i : Nat) :
    ((renderLinksAux pageWidth rows yPos lastLevel)[i]?).map
        (fun l => (l.x0, l.x1, l.targetPage)) =
      (rows[i]?).map (fun r => ((50 : ℚ) + rowIndent r.2.2, pageWidth - 50, r.2.1 - 1)) := by
  induction rows generalizing yPos lastLevel i with
  | nil => simp [renderLinksAux]
  | cons r rest ih =>
    obtain ⟨t, p, lv⟩ := r
    cases i with
    | zero => simp [renderLinksAux]
    | succ n =>
      rw [renderLinksAux]
      simp only [List.getElem?_cons_succ]
      exact ih _ _ n

/-! ### Lemmas about the dot-leader computation -/

/-- Truncation toward zero and flooring agree after clamping at zero. -/
theorem ratTrunc_toNat (q : ℚ) : (ratTrunc q).toNat = (⌊q⌋).toNat := by
  unfold ratTrunc
  split
  · rfl
  · rename_i h
    push_neg at h
    have h1 : ⌈q⌉ ≤ (0 : Int) := Int.ceil_le.mpr (by exact_mod_cast h.le)
    have h2 : ⌊q⌋ ≤ 0 := le_trans (Int.floor_le_ceil q) h1
    omega

/-- The number of dots actually drawn is the floored ratio clamped at
zero (truncation and flooring differ only on negative ratios, which the
clamp sends to zero either way). -/
theorem drawnDots_eq_floor_toNat (contentWidth indent titleWidth pageNumWidth dotWidth : ℚ) :
    drawnDots contentWidth indent titleWidth pageNumWidth dotWidth =
      (⌊dotsWidth contentWidth indent titleWidth pageNumWidth / dotWidth⌋).toNat := by
  rw [drawnDots, numDots, ratTrunc_toNat]

/-! ### Claims -/

/-- C1 counterexample: in the schema `{"Introduction": {"Sub": {}}}` the
Section "Sub" is a descendant of the front-matter-exempted
"Introduction", yet it produces the visible TOC row `("Sub", 1, 2)`: the
code checks only a Section's own title (line 63), so the exemption is not
inherited by nested Sections, refuting "every descendant node beneath it
produces no visible TOC entry". -/
theorem introduction_descendant_section_visible :
    (runWalk noFiles
      [("Introduction", Node.sect false [("Sub", Node.sect false [])])]).visibleToc
        = [("Sub", 1, 2)] ∧
    (runWalk noFiles
      [("Introduction", Node.sect false [("Sub", Node.sect false [])])]).visibleToc
        ≠ [] := ⟨by decide, by decide⟩

/-- C1 (amended): the front-matter exemption is inherited down the
ancestor stack by Leaf nodes only. A Leaf processed with "Introduction"
anywhere on its ancestor stack — hence any Leaf below the exempted
section, at any depth, since descendants are processed with extended
stacks — appends no visible TOC row; a Section whose own title differs
from "Introduction" always appends its visible row, whatever its
ancestor stack contains. -/
theorem exemption_inherited_by_leaves_only :
    (∀ (fsys : String → Option Nat) (parents : List (String × Nat)) (title : String)
        (files : List String) (level : Nat) (s : MergeState),
      (parents.any (fun p => p.1 == "Introduction")) = true →
      (processSection fsys parents title (Node.leaf files) level s).visibleToc =
        s.visibleToc) ∧
    (∀ (fsys : String → Option Nat) (parents : List (String × Nat)) (title : String)
        (children : List (String × Node)) (level : Nat) (s : MergeState),
      title ≠ "Introduction" →
      ∃ t, (processSection fsys parents title (Node.sect false children) level s).visibleToc
        = s.visibleToc ++ ((title, s.currentPage, level) :: t)) := by
  constructor
  · intro fsys parents title files level s h
    simp [processSection, h, processFiles_visibleToc]
  · intro fsys parents title children level s h
    obtain ⟨t1, h1⟩ := processChildren_visible_mono fsys (parents ++ [(title, level)])
      children (level + 1)
      { s with toc := s.toc ++ [(level, title, s.currentPage)],
               visibleToc := s.visibleToc ++ [(title, s.currentPage, level)] }
    refine ⟨t1, ?_⟩
    simp only [processSection, if_neg h]
    rw [h1]
    simp

/-- Witness for the amended C1 at concrete inputs. -/
theorem exemption_inherited_by_leaves_only_witness :
    (processSection noFiles [("Introduction", 1)] "X" (Node.leaf ["a.pdf"]) 2
      initState).visibleToc = initState.visibleToc ∧
    ∃ t, (processSection noFiles [("Introduction", 1)] "Sub"
      (Node.sect false []) 2 initState).visibleToc =
        initState.visibleToc ++ (("Sub", initState.currentPage, 2) :: t) :=
  ⟨exemption_inherited_by_leaves_only.1 noFiles [("Introduction", 1)] "X"
      ["a.pdf"] 2 initState (by decide),
   exemption_inherited_by_leaves_only.2 noFiles [("Introduction", 1)] "Sub"
      [] 2 initState (by decide)⟩

/-- C2: in a depth-1, leaf-only schema whose listed files all exist, the
page recorded in the Nth leaf group's TOC row is 1 (the initial cursor)
plus the total page count of all documents of the preceding groups, in
declaration order. -/
theorem nth_leaf_group_start_page (fsys : String → Option Nat)
    (groups : List (String × List String)) (N : Nat) (hN : N < groups.length)
    (_hex : ∀ g ∈ groups, ∀ f ∈ g.2, (fsys (resolve f)).isSome = true) :
    (runWalk fsys (groups.map (fun g => (g.1, Node.leaf g.2)))).visibleToc[N]? =
      some ((groups.get ⟨N, hN⟩).1,
        1 + ((groups.take N).map (fun g => (groupPages fsys g.2 : Int))).sum, 1) := by
  rw [runWalk, leafWalk_visible]
  show (([] : List (String × Int × Nat)) ++ leafEntriesFrom fsys 1 groups)[N]? = _
  rw [List.nil_append]
  exact leafEntriesFrom_get fsys 1 groups N hN

/-- Witness for C2: two one-file groups on a filesystem where every file
has two pages; the second group's row records page 1 + 2 = 3. -/
theorem nth_leaf_group_start_page_witness :
    (∀ g ∈ [("A", ["a.pdf"]), ("B", ["b.pdf"])], ∀ f ∈ g.2,
      (twoPages (resolve f)).isSome = true) ∧
    (runWalk twoPages
      ([("A", ["a.pdf"]), ("B", ["b.pdf"])].map
        (fun g => (g.1, Node.leaf g.2)))).visibleToc[1]? = some ("B", 3, 1) :=
  ⟨by decide,
   nth_leaf_group_start_page twoPages [("A", ["a.pdf"]), ("B", ["b.pdf"])] 1
     (by decide) (by decide)⟩

/-- C3 counterexample: with the marker as the first schema node, the
page cursor immediately before encountering it is `initState.currentPage
= 1`, but the recorded TOC insertion page is 0 = 1 - 1, not 1: the claim
"the recorded TOC insertion page equals the page cursor value
immediately before encountering the marker" fails (line 42 records
`current_page - 1`). -/
theorem toc_marker_off_by_one :
    (runWalk noFiles [("T", Node.sect true [])]).tocPageNumber =
      some (initState.currentPage - 1) ∧
    (runWalk noFiles [("T", Node.sect true [])]).tocPageNumber ≠
      some initState.currentPage := ⟨by decide, by decide⟩

/-- C3 (amended): if the marker is present, the recorded TOC insertion
page equals the page cursor value immediately before encountering the
marker MINUS ONE, and the marker affects subsequent processing only by
advancing the cursor by exactly one (and recording the placement): the
rest of the walk continues from exactly that state. -/
theorem toc_marker_insertion_page (fsys : String → Option Nat)
    (pre post : List (String × Node)) (t : String) (cs : List (String × Node))
    (hpost : childrenHaveMarker post = false) :
    (runWalk fsys (pre ++ (t, Node.sect true cs) :: post)).tocPageNumber =
      some ((processChildren fsys [] pre 1 initState).currentPage - 1) ∧
    runWalk fsys (pre ++ (t, Node.sect true cs) :: post) =
      processChildren fsys [] post 1
        { processChildren fsys [] pre 1 initState with
          tocPageNumber :=
            some ((processChildren fsys [] pre 1 initState).currentPage - 1),
          currentPage := (processChildren fsys [] pre 1 initState).currentPage + 1 } := by
  have hsplit : runWalk fsys (pre ++ (t, Node.sect true cs) :: post) =
      processChildren fsys [] post 1
        { processChildren fsys [] pre 1 initState with
          tocPageNumber :=
            some ((processChildren fsys [] pre 1 initState).currentPage - 1),
          currentPage := (processChildren fsys [] pre 1 initState).currentPage + 1 } := by
    rw [runWalk, processChildren_append]
    rfl
  refine ⟨?_, hsplit⟩
  rw [hsplit, processChildren_tocPage_noMarker fsys [] post 1 _ hpost]

/-- Witness for the amended C3 at concrete inputs. -/
theorem toc_marker_insertion_page_witness :
    childrenHaveMarker ([] : List (String × Node)) = false ∧
    ((runWalk noFiles ([] ++ ("T", Node.sect true []) :: [])).tocPageNumber =
      some ((processChildren noFiles [] [] 1 initState).currentPage - 1) ∧
     runWalk noFiles ([] ++ ("T", Node.sect true []) :: []) =
      processChildren noFiles [] [] 1
        { processChildren noFiles [] [] 1 initState with
          tocPageNumber :=
            some ((processChildren noFiles [] [] 1 initState).currentPage - 1),
          currentPage := (processChildren noFiles [] [] 1 initState).currentPage + 1 }) :=
  ⟨by decide, toc_marker_insertion_page noFiles [] [] "T" [] (by decide)⟩

/-- C4: on a node tagged as the TOC placement marker (a dict containing
the key `"_toc_"`), the walker records the current cursor minus one as
the TOC insertion page, advances the cursor by exactly one, and returns
without touching the TOC lists, the output document, the warnings, or
the node's contents. -/
theorem toc_marker_step (fsys : String → Option Nat) (parents : List (String × Nat))
    (title : String) (children : List (String × Node)) (level : Nat) (s : MergeState) :
    processSection fsys parents title (Node.sect true children) level s =
      { s with tocPageNumber := some (s.currentPage - 1),
               currentPage := s.currentPage + 1 } := rfl

/-- C5: for every visible TOC row, the number of dot-leader glyphs drawn
equals the remaining horizontal space (content width − indent − title
width − page-number width − the fixed 20-unit gap) divided by the width
of one dot glyph, floored and clamped to ≥ 0 — `int()` truncates toward
zero rather than flooring, but Python string repetition clamps a
negative count to zero glyphs, which coincides with the clamped floor;
in particular the drawn count is never negative. -/
theorem dot_leader_drawn_count (contentWidth indent titleWidth pageNumWidth dotWidth : ℚ)
    (_h : 0 < dotWidth) :
    (drawnDots contentWidth indent titleWidth pageNumWidth dotWidth : Int) =
      max ⌊dotsWidth contentWidth indent titleWidth pageNumWidth / dotWidth⌋ 0 := by
  rw [drawnDots_eq_floor_toNat]
  exact Int.toNat_eq_max _

/-- Witness for C5 at concrete widths. -/
theorem dot_leader_drawn_count_witness :
    (0 : ℚ) < 2 ∧
    (drawnDots 495 0 100 10 2 : Int) = max ⌊dotsWidth 495 0 100 10 / 2⌋ 0 :=
  ⟨by norm_num, dot_leader_drawn_count 495 0 100 10 2 (by norm_num)⟩

/-- C6: over a Leaf group, the cursor and the output document advance by
exactly the sum of the page counts of the files that exist, and one
non-fatal "File not found" warning is appended per missing file, in
declaration order — missing files leave the cursor unchanged and
processing continues past them. -/
theorem leaf_file_loop_accounting (fsys : String → Option Nat)
    (parents : List (String × Nat)) (title : String) (files : List String)
    (level : Nat) (s : MergeState) :
    (processSection fsys parents title (Node.leaf files) level s).currentPage =
      s.currentPage + (groupPages fsys files : Int) ∧
    (processSection fsys parents title (Node.leaf files) level s).docPages =
      s.docPages + groupPages fsys files ∧
    (processSection fsys parents title (Node.leaf files) level s).warnings =
      s.warnings ++ (files.filter (fun f => (fsys (resolve f)).isNone)).map
        (fun f => "File not found: " ++ resolve f) := by
  by_cases hp : (parents.any (fun p => p.1 == "Introduction")) = true <;>
    refine ⟨?_, ?_, ?_⟩ <;> simp [processSection, hp, processFiles_spec]

/-- C7: when no TOC placement marker appears anywhere in the schema, the
TOC insertion page used is 0 (the document head) and the missing-marker
warning is emitted; the run continues normally. -/
theorem missing_marker_defaults (fsys : String → Option Nat)
    (schema : List (String × Node)) (h : childrenHaveMarker schema = false) :
    tocPageFinal (runWalk fsys schema) = 0 ∧
    tocMissingWarning (runWalk fsys schema) = true := by
  have hn : (runWalk fsys schema).tocPageNumber = none := by
    rw [runWalk, processChildren_tocPage_noMarker fsys [] schema 1 initState h]
    rfl
  exact ⟨by simp [tocPageFinal, hn], by simp [tocMissingWarning, hn]⟩

/-- Witness for C7 on a one-group schema without a marker. -/
theorem missing_marker_defaults_witness :
    childrenHaveMarker [("A", Node.leaf ["a.pdf"])] = false ∧
    (tocPageFinal (runWalk noFiles [("A", Node.leaf ["a.pdf"])]) = 0 ∧
     tocMissingWarning (runWalk noFiles [("A", Node.leaf ["a.pdf"])]) = true) :=
  ⟨by decide, missing_marker_defaults noFiles [("A", Node.leaf ["a.pdf"])] (by decide)⟩

/-- C8 counterexample: for a level-2 row the link rectangle's left edge
is `text_x = margin_left + indent = 50 + 30 = 80`, not the left margin
50 (line 162 starts the rectangle at `text_x`): the region does not span
the full content width from the left margin. -/
theorem link_region_left_edge :
    ((renderLinks 595 [("A", 1, 1), ("B", 1, 2)])[1]?).map (fun l => l.x0) =
      some 80 ∧ (80 : ℚ) ≠ 50 := by
  constructor
  · norm_num [renderLinks, renderLinksAux, rowIndent]
  · norm_num

/-- C8 (amended): each visible TOC row produces exactly one clickable
goto-link; its region spans from the row's indented title x-position
(left margin + 30·(level − 1)) to the right content margin at that row's
vertical band, and its target is the row's page number minus one in
zero-based page indexing. -/
theorem link_regions_per_row (pageWidth : ℚ) (rows : List (String × Int × Nat)) :
    (renderLinks pageWidth rows).length = rows.length ∧
    ∀ (i : Nat), ((renderLinks pageWidth rows)[i]?).map
        (fun (l : LinkAnn) => (l.x0, l.x1, l.targetPage)) =
      (rows[i]?).map (fun (r : String × Int × Nat) =>
        ((50 : ℚ) + rowIndent r.2.2, pageWidth - 50, (r.2.1 : Int) - 1)) :=
  ⟨renderLinksAux_length pageWidth rows 100 1,
   fun i => renderLinksAux_get pageWidth rows 100 1 i⟩

/-- C9 counterexample: at dot width 2, title widths 100 and 101 (all
other widths equal) both yield 182 drawn dots: the glyph count does not
strictly decrease as the title width increases. -/
theorem dot_leader_plateau :
    drawnDots 495 0 100 10 2 = 182 ∧ drawnDots 495 0 101 10 2 = 182 ∧
    (100 : ℚ) < 101 := by
  refine ⟨?_, ?_, by norm_num⟩
  · norm_num [drawnDots, numDots, ratTrunc, dotsWidth]
    decide
  · norm_num [drawnDots, numDots, ratTrunc, dotsWidth]
    decide

/-- C9 (amended): holding the page-number width and the available
content width constant, the drawn dot-leader glyph count is monotone
non-increasing in the measured title width (it weakly, not strictly,
decreases: flooring and clamping produce plateaus). -/
theorem dot_leader_count_antitone (contentWidth indent pageNumWidth dotWidth t1 t2 : ℚ)
    (hdw : 0 < dotWidth) (h : t1 ≤ t2) :
    drawnDots contentWidth indent t2 pageNumWidth dotWidth ≤
      drawnDots contentWidth indent t1 pageNumWidth dotWidth := by
  rw [drawnDots_eq_floor_toNat, drawnDots_eq_floor_toNat]
  have hd : dotsWidth contentWidth indent t2 pageNumWidth ≤
      dotsWidth contentWidth indent t1 pageNumWidth := by
    simp only [dotsWidth]
    linarith
  exact Int.toNat_le_toNat (Int.floor_mono ((div_le_div_iff_of_pos_right hdw).mpr hd))

/-- Witness for the amended C9 at concrete widths. -/
theorem dot_leader_count_antitone_witness :
    (0 : ℚ) < 2 ∧ (100 : ℚ) ≤ 101 ∧
    drawnDots 495 0 101 10 2 ≤ drawnDots 495 0 100 10 2 :=
  ⟨by norm_num, by norm_num,
   dot_leader_count_antitone 495 0 10 2 100 101 (by norm_num) (by norm_num)⟩

/-- C10: every step of the walk preserves the lockstep invariant between
the navigation outline list and the visible TOC list (equal lengths,
with the i-th outline triple `(level, title, page)` the reordering of
the i-th visible row `(title, page, level)`), and consequently the
outline installed by `doc.set_toc` at the end lists exactly the visible
TOC rows, in the same order. -/
theorem outline_visible_lockstep :
    (∀ (fsys : String → Option Nat) (parents : List (String × Nat)) (title : String)
        (content : Node) (level : Nat) (s : MergeState),
      aligned s → aligned (processSection fsys parents title content level s)) ∧
    (∀ (fsys : String → Option Nat) (schema : List (String × Node)),
      docOutline (runWalk fsys schema) =
        (runWalk fsys schema).visibleToc.map rowToOutline) := by
  constructor
  · exact processSection_aligned
  · intro fsys schema
    exact processChildren_aligned fsys [] schema 1 initState rfl

/-- Witness for C10 at a concrete step from the initial state. -/
theorem outline_visible_lockstep_witness :
    aligned initState ∧
    aligned (processSection twoPages [] "A" (Node.leaf ["a.pdf"]) 1 initState) :=
  ⟨rfl, outline_visible_lockstep.1 twoPages [] "A" (Node.leaf ["a.pdf"]) 1 initState rfl⟩

end PdfMerge
